import Mathlib

/-!
Shallow embedding of `server/tasks/discovery_artifact_manager.py` from the
discovery-artifact-manager repository, together with proofs of the spec
claims about it.

The module has three entry points:
  * `discovery_documents(filepath, preferred, skip)` - clones the tracked
    repository, scans `discoveries/*.json`, and builds an API id to
    document-filename mapping;
  * `update(filepath, github_account)` - regenerates the corpus, commits
    and pushes when the staged diff is nonempty (helper `_update_disco`);
  * `create_pull_request(filepath, github_account)` - same cycle on a fresh
    branch, followed by a pull request.

File contents and process results are modelled by their observable parse
and exit outcomes; external effects (clone, reads, git operations, process
invocations, the GitHub call) are recorded in an explicit effect trace.
-/

set_option autoImplicit false

/-- Parse outcome of one JSON document file, as observed by the line
    `id_ = json.load(file_)["id"]`: the content is not valid JSON, it is
    valid JSON but has no "id" field, or it has a string "id" field. -/
inductive JsonDoc where
  | invalid : JsonDoc
  | noId : JsonDoc
  | withId (id : String) : JsonDoc
deriving DecidableEq

/-- Whether the document parses and carries an "id" field. -/
def JsonDoc.hasId : JsonDoc → Bool
  | .withId _ => true
  | _ => false

/-- One file returned by `glob.glob(join(repo.filepath, "discoveries/*.json"))`:
    its full path and the parse outcome of its content. -/
structure DFile where
  path : String
  content : JsonDoc
deriving DecidableEq

/-- One element of the `items` list of the index, with its `id` and `preferred`
    fields. -/
structure IndexItem where
  id : String
  preferred : Bool
deriving DecidableEq

/-- Parse outcome of `discoveries/index.json` as observed by
    `json.load(file_)` followed by `index["items"]` and the per-item field
    accesses: either malformed (invalid JSON or missing expected fields) or a
    well-formed list of items. -/
inductive IndexParse where
  | invalid : IndexParse
  | ok (items : List IndexItem) : IndexParse
deriving DecidableEq

/-- The on-disk state of the cloned working copy that
    `discovery_documents` reads: the glob result for `discoveries/*.json`
    in scan order (which includes `index.json` when present), and the parse
    outcome of `discoveries/index.json`. -/
structure Corpus where
  files : List DFile
  indexContent : IndexParse
deriving DecidableEq

/-- Errors raised while resolving: `json.load(file_)["id"]` raising for a
    document (named MalformedDocumentError in the spec taxonomy), or the index
    read raising (named MalformedIndexError in the spec taxonomy). -/
inductive DiscoError where
  | malformedDocument (path : String) : DiscoError
  | malformedIndex : DiscoError
deriving DecidableEq

/-- Constant `_ACTUALLY_PREFERRED`: ids incorrectly marked in the Discovery index as
    not preferred. -/
def _ACTUALLY_PREFERRED : List String := ["admin:directory_v1", "admin:datatransfer_v1"]

/-- Default repository short name, overridable by environment variable. -/
def _REPO_NAME : String := "discovery-artifact-manager"

/-- Default repository path, overridable by environment variable. -/
def _REPO_PATH : String := "googleapis/discovery-artifact-manager"

/-- The two environment-variable overrides read by `_repo_name` and
    `_repo_path` (`os.environ.get` returns `none` when unset). -/
structure Env where
  repoNameOverride : Option String
  repoPathOverride : Option String
deriving DecidableEq

/-- Embeds `os.environ.get("DISCOVERY_ARTIFACT_MANAGER_REPO_NAME") or _REPO_NAME`:
    an unset or empty (falsy) variable falls back to the default. -/
def _repo_name (env : Env) : String :=
  match env.repoNameOverride with
  | some s => if s.isEmpty then _REPO_NAME else s
  | none => _REPO_NAME

/-- Embeds `os.environ.get("DISCOVERY_ARTIFACT_MANAGER_REPO_PATH") or _REPO_PATH`. -/
def _repo_path (env : Env) : String :=
  match env.repoPathOverride with
  | some s => if s.isEmpty then _REPO_PATH else s
  | none => _REPO_PATH

/-- Embeds `os.path.join` for the paths appearing here (no absolute second part). -/
def joinPath (a b : String) : String := a ++ "/" ++ b

/-- Characters after the last slash, accumulating the current component. -/
def basenameChars : List Char → List Char → List Char
  | [], acc => acc.reverse
  | c :: cs, acc => if c = '/' then basenameChars cs [] else basenameChars cs (c :: acc)

/-- Embeds `os.path.basename`: the component after the last slash. -/
def basename (p : String) : String := String.mk (basenameChars p.data [])

/-- Key lookup in the id-to-filename mapping (`ddocs` is a Python dict;
    insertion order is the list order, keys are unique by construction). -/
def dlookup (m : List (String × String)) (k : String) : Option String :=
  match m with
  | [] => none
  | (a, b) :: t => if a = k then some b else dlookup t k

/-- Embeds `ddocs.pop(id_, None)`: remove the key if present, no-op otherwise. -/
def dpop (m : List (String × String)) (k : String) : List (String × String) :=
  m.filter (fun x => decide (x.1 ≠ k))

/-- The `for filename in filenames` loop: open each file, extract its id
    (raising `MalformedDocumentError` when that fails), and record
    `ddocs[id_] = filename` unless the id was already visited. -/
def buildDdocs : List DFile → List (String × String) → Except DiscoError (List (String × String))
  | [], ddocs => .ok ddocs
  | f :: fs, ddocs =>
    match f.content with
    | .invalid => .error (.malformedDocument f.path)
    | .noId => .error (.malformedDocument f.path)
    | .withId id =>
      if (dlookup ddocs id).isSome then buildDdocs fs ddocs
      else buildDdocs fs (ddocs ++ [(id, f.path)])

/-- Embeds `if skip: [ddocs.pop(id_, None) for id_ in skip]`. -/
def applySkip (skip : Option (List String)) (ddocs : List (String × String)) :
    List (String × String) :=
  match skip with
  | none => ddocs
  | some s => s.foldl dpop ddocs

/-- The `for api in index["items"]` loop: keep ids in `_ACTUALLY_PREFERRED`,
    keep entries marked preferred, pop everything else. -/
def preferredFilter (items : List IndexItem) (ddocs : List (String × String)) :
    List (String × String) :=
  items.foldl
    (fun m api =>
      if _ACTUALLY_PREFERRED.contains api.id then m
      else if api.preferred then m
      else dpop m api.id)
    ddocs

/-- Embeds `filenames = [x for x in filenames if os.path.basename(x) != "index.json"]`. -/
def filteredFiles (c : Corpus) : List DFile :=
  c.files.filter (fun f => decide (basename f.path ≠ "index.json"))

/-- Embeds `discovery_documents(filepath, preferred=False, skip=None)` as a function
    of the cloned corpus state: scan the non-index document files first-seen
    wins, drop the skip ids, and when `preferred` is set filter through the
    index. -/
def discovery_documents (c : Corpus) (preferred : Bool) (skip : Option (List String)) :
    Except DiscoError (List (String × String)) :=
  match buildDdocs (filteredFiles c) [] with
  | .error e => .error e
  | .ok ddocs =>
    let ddocs := applySkip skip ddocs
    if !preferred then .ok ddocs
    else
      match c.indexContent with
      | .invalid => .error .malformedIndex
      | .ok items => .ok (preferredFilter items ddocs)

/-!
Effect traces.  Each externally visible operation performed by the module is
one constructor.  The semantics of the collaborators behind them
(`tasks._git`, `tasks._check_output`, `tasks.accounts`, the `github`
client, `tempfile.TemporaryDirectory`) are not under `src/`; their
observable behavior is modelled from the stated contracts of the spec in the
definitions below.
-/

/-- Modelled from the spec: one externally visible operation.  The
    version-control, process, filesystem and review-request collaborators
    are external to this module; each call into them is recorded as one
    trace element. -/
inductive Effect where
  | cloneFromGitHub (repoPath localPath : String) : Effect
  | globFiles (pattern : String) : Effect
  | readFile (path : String) : Effect
  | gitAdd (paths : List String) : Effect
  | gitDiffNameStatus : Effect
  | gitCommit (message authorName authorEmail : String) : Effect
  | gitCheckoutNew (branch : String) : Effect
  | gitPush (branch : Option String) : Effect
  | makeTempDir : Effect
  | makeDirs (path : String) : Effect
  | runProcess (cmd : List String) : Effect
  | removeTempDir : Effect
  | getRepo (path : String) : Effect
  | createPull (title body base head : String) : Effect
deriving DecidableEq

/-- The effects that only read the filesystem: directory enumeration and
    file reads.  Everything else writes, runs a process, or talks to the
    network. -/
def Effect.isFilesystemRead : Effect → Bool
  | .globFiles _ => true
  | .readFile _ => true
  | _ => false

/-- The temporary-build-directory lifecycle effects. -/
def Effect.isTempDir : Effect → Bool
  | .makeTempDir => true
  | .removeTempDir => true
  | _ => false

/-- Commit effects. -/
def Effect.isCommit : Effect → Bool
  | .gitCommit _ _ _ => true
  | _ => false

/-- Push effects. -/
def Effect.isPush : Effect → Bool
  | .gitPush _ => true
  | _ => false

/-- The reads performed by the scan loop of `discovery_documents`: every
    file is opened in order; the first file whose parse fails raises and
    ends the loop. -/
def scanTrace : List DFile → List Effect
  | [] => []
  | f :: fs =>
    Effect.readFile f.path ::
      (match f.content with
       | .withId _ => scanTrace fs
       | _ => [])

/-- The effect trace of `discovery_documents(filepath, preferred, skip)`:
    clone the tracked repository into `filepath`, glob the documents
    directory, read each document, and (when `preferred` is set and the scan
    succeeded) read `index.json`.  The skip list causes no effects. -/
def discovery_documents_trace (env : Env) (filepath : String) (c : Corpus)
    (preferred : Bool) : List Effect :=
  Effect.cloneFromGitHub (_repo_path env) (joinPath filepath (_repo_name env)) ::
  Effect.globFiles (joinPath (joinPath filepath (_repo_name env)) "discoveries/*.json") ::
  (scanTrace (filteredFiles c) ++
    (if (filteredFiles c).all (fun f => f.content.hasId) && preferred then
      [Effect.readFile (joinPath (joinPath filepath (_repo_name env)) "discoveries/index.json")]
    else []))

/-- Modelled from the spec: the GitHub account handed to the update cycle,
    with the name and email used for commit attribution and the personal
    access token used for the review-request call (`tasks.accounts` is not
    under `src/`). -/
structure GitHubAccount where
  name : String
  email : String
  personal_access_token : String
deriving DecidableEq

/-- Errors aborting the update cycle.  Modelled from the spec:
    `tasks._check_output.check_output` (not under `src/`) raises on a
    non-zero exit of the invoked process; the spec taxonomy calls the
    resulting failure RegenerationFailedError. -/
inductive UpdateError where
  | regenerationFailed (cmd : List String) (exitCode : Nat) : UpdateError
deriving DecidableEq

/-- The observable outcomes of the collaborator calls made by one update
    cycle on the cloned working copy: the exit codes of the two processes
    run by `_update_disco`, and the name+status diff reported by
    `repo.diff_name_status()` after `repo.add(["discoveries"])`. -/
structure RepoState where
  filepath : String
  lnExitCode : Nat
  goExitCode : Nat
  diffNameStatusAfterAdd : List (String × String)
deriving DecidableEq

/-- The symlink command `["ln", "-s", join(repo.filepath, "src"),
    join(gopath, "src/discovery-artifact-manager")]`. -/
def lnCmd (repo : RepoState) (gopath : String) : List String :=
  ["ln", "-s", joinPath repo.filepath "src", joinPath gopath "src/discovery-artifact-manager"]

/-- The regeneration command `["go", "run", "src/main/updatedisco/main.go"]`. -/
def goCmd : List String := ["go", "run", "src/main/updatedisco/main.go"]

/-- The fixed commit message. -/
def commitMessage : String := "Autogenerated Discovery document update"

/-- Embeds `_update_disco(repo, github_account)`: create a temporary GOPATH
    (removed when the `with` block exits, on success or on a raised
    error), symlink the source tree, run the regeneration tool, stage
    `discoveries`, and commit when the staged diff is nonempty.  Returns
    the number of commits made. -/
def _update_disco (repo : RepoState) (account : GitHubAccount) (gopath : String) :
    Except UpdateError Nat × List Effect :=
  let pre : List Effect :=
    [Effect.makeTempDir, Effect.makeDirs (joinPath gopath "src"),
     Effect.runProcess (lnCmd repo gopath)]
  if repo.lnExitCode ≠ 0 then
    (.error (.regenerationFailed (lnCmd repo gopath) repo.lnExitCode),
     pre ++ [Effect.removeTempDir])
  else if repo.goExitCode ≠ 0 then
    (.error (.regenerationFailed goCmd repo.goExitCode),
     pre ++ [Effect.runProcess goCmd, Effect.removeTempDir])
  else
    let t := pre ++
      [Effect.runProcess goCmd, Effect.removeTempDir,
       Effect.gitAdd ["discoveries"], Effect.gitDiffNameStatus]
    if repo.diffNameStatusAfterAdd.isEmpty then (.ok 0, t)
    else (.ok 1, t ++ [Effect.gitCommit commitMessage account.name account.email])

/-- Embeds `update(filepath, github_account)`: clone, run `_update_disco`, and
    push exactly when it made a commit.  The returned Bool is the updated
    outcome of the cycle, `_update_disco(...) > 0`. -/
def update (env : Env) (filepath : String) (repo : RepoState) (account : GitHubAccount)
    (gopath : String) : Except UpdateError Bool × List Effect :=
  let cloneE := Effect.cloneFromGitHub (_repo_path env) (joinPath filepath (_repo_name env))
  match _update_disco repo account gopath with
  | (.error e, t) => (.error e, cloneE :: t)
  | (.ok n, t) =>
    if n > 0 then (.ok true, cloneE :: (t ++ [Effect.gitPush none]))
    else (.ok false, cloneE :: t)

/-- A wall-clock reading, with the fields `strftime` formats. -/
structure Timestamp where
  year : Nat
  month : Nat
  day : Nat
  hour : Nat
  minute : Nat
  second : Nat
deriving DecidableEq

/-- Zero-pad a number to a width, as `strftime` does. -/
def padNum (w n : Nat) : String :=
  let s := toString n
  String.mk (List.replicate (w - s.length) '0') ++ s

/-- Embeds `strftime("%Y%m%d-%H%M%S")`. -/
def strftimeYmdHMS (t : Timestamp) : String :=
  padNum 4 t.year ++ padNum 2 t.month ++ padNum 2 t.day ++ "-" ++
    padNum 2 t.hour ++ padNum 2 t.minute ++ padNum 2 t.second

/-- The system clock at the moment `create_pull_request` reads it:
    `datetime.datetime.now()` returns `localNow` (local time);
    `datetime.datetime.utcnow()` would return `utcNow`.  The two differ by
    the host time zone offset. -/
structure Clock where
  localNow : Timestamp
  utcNow : Timestamp
deriving DecidableEq

/-- The branch name built by `create_pull_request`:
    `"update-discovery-artifacts-" + datetime.datetime.now().strftime("%Y%m%d-%H%M%S")`. -/
def prBranchName (clock : Clock) : String :=
  "update-discovery-artifacts-" ++ strftimeYmdHMS clock.localNow

/-- The fixed pull-request title. -/
def prTitle : String := "chore: autogenerated discovery document update"

/-- Embeds `create_pull_request(filepath, github_account)`: clone, check out a
    fresh timestamped branch, run `_update_disco`, and when it made a
    commit push that branch and open a pull request against `master` with
    the fixed title and empty body. -/
def create_pull_request (env : Env) (filepath : String) (repo : RepoState)
    (account : GitHubAccount) (clock : Clock) (gopath : String) :
    Except UpdateError Unit × List Effect :=
  let cloneE := Effect.cloneFromGitHub (_repo_path env) (joinPath filepath (_repo_name env))
  let branch := prBranchName clock
  match _update_disco repo account gopath with
  | (.error e, t) => (.error e, cloneE :: Effect.gitCheckoutNew branch :: t)
  | (.ok n, t) =>
    if n > 0 then
      (.ok (), cloneE :: Effect.gitCheckoutNew branch ::
        (t ++ [Effect.gitPush (some branch),
               Effect.getRepo (_repo_path env),
               Effect.createPull prTitle "" "master" branch]))
    else (.ok (), cloneE :: Effect.gitCheckoutNew branch :: t)

/-! Lemmas about the mapping primitives. -/

theorem dlookup_append (m₁ m₂ : List (String × String)) (k : String) :
    dlookup (m₁ ++ m₂) k =
      match dlookup m₁ k with
      | some v => some v
      | none => dlookup m₂ k := by
  induction m₁ with
  | nil => simp [dlookup]
  | cons hd tl ih =>
    obtain ⟨a, b⟩ := hd
    by_cases hak : a = k <;> simp [dlookup, hak, ih]

theorem dlookup_eq_none_iff (m : List (String × String)) (k : String) :
    dlookup m k = none ↔ ∀ v, (k, v) ∉ m := by
  induction m with
  | nil => simp [dlookup]
  | cons hd tl ih =>
    obtain ⟨a, b⟩ := hd
    by_cases hak : a = k
    · subst hak
      constructor
      · intro h
        simp [dlookup] at h
      · intro h
        exact absurd (List.mem_cons_self _ _) (h b)
    · constructor
      · intro h v
        simp [dlookup, hak] at h
        simp [ih.mp h v]
        exact fun heq => absurd heq.symm hak
      · intro h
        simp [dlookup, hak]
        exact ih.mpr (fun v hv => h v (List.mem_cons_of_mem _ hv))

theorem mem_of_dlookup_eq_some {m : List (String × String)} {k v : String}
    (h : dlookup m k = some v) : (k, v) ∈ m := by
  induction m with
  | nil => simp [dlookup] at h
  | cons hd tl ih =>
    obtain ⟨a, b⟩ := hd
    by_cases hak : a = k
    · subst hak
      simp [dlookup] at h
      simp [h]
    · simp [dlookup, hak] at h
      simp [ih h]

theorem dlookup_isSome_iff (m : List (String × String)) (k : String) :
    (dlookup m k).isSome = true ↔ ∃ v, (k, v) ∈ m := by
  constructor
  · intro h
    obtain ⟨v, hv⟩ := Option.isSome_iff_exists.mp h
    exact ⟨v, mem_of_dlookup_eq_some hv⟩
  · intro ⟨v, hv⟩
    cases h : dlookup m k with
    | some w => simp
    | none => exact absurd hv ((dlookup_eq_none_iff m k).mp h v)

theorem dpop_subset (m : List (String × String)) (k : String) :
    dpop m k ⊆ m := List.filter_subset' m

theorem mem_dpop_iff {m : List (String × String)} {j k v : String} :
    (k, v) ∈ dpop m j ↔ (k, v) ∈ m ∧ k ≠ j := by
  simp [dpop, List.mem_filter]

theorem dlookup_dpop_self (m : List (String × String)) (k : String) :
    dlookup (dpop m k) k = none := by
  rw [dlookup_eq_none_iff]
  intro v hv
  exact (mem_dpop_iff.mp hv).2 rfl

theorem dlookup_none_of_subset {m₁ m₂ : List (String × String)} {k : String}
    (hsub : m₁ ⊆ m₂) (h : dlookup m₂ k = none) : dlookup m₁ k = none := by
  rw [dlookup_eq_none_iff] at h ⊢
  exact fun v hv => h v (hsub hv)

theorem applySkip_subset (skip : Option (List String)) (m : List (String × String)) :
    applySkip skip m ⊆ m := by
  match skip with
  | none => simp [applySkip]
  | some s =>
    simp only [applySkip]
    induction s generalizing m with
    | nil => simp [List.Subset.refl]
    | cons hd tl ih =>
      exact fun {x} hx => dpop_subset m hd (ih (dpop m hd) hx)

theorem preferredFilter_subset (items : List IndexItem) (m : List (String × String)) :
    preferredFilter items m ⊆ m := by
  induction items generalizing m with
  | nil => simp [preferredFilter]
  | cons hd tl ih =>
    intro x hx
    simp only [preferredFilter, List.foldl_cons] at hx
    by_cases h1 : _ACTUALLY_PREFERRED.contains hd.id
    · simp only [h1, if_true] at hx
      exact ih m hx
    · by_cases h2 : hd.preferred
      · simp only [h1, h2, if_false, if_true] at hx
        exact ih m hx
      · simp only [h1, h2, if_false] at hx
        exact dpop_subset m hd.id (ih (dpop m hd.id) hx)

/-! Lemmas about the scan loop. -/

/-- The path of the first file in scan order carrying a given id, the
    reference point for first-seen-wins de-duplication. -/
def firstWithId (fs : List DFile) (k : String) : Option String :=
  match fs with
  | [] => none
  | f :: fs => if f.content = .withId k then some f.path else firstWithId fs k

theorem buildDdocs_isOk {fs : List DFile} (hall : ∀ f ∈ fs, f.content.hasId = true)
    (acc : List (String × String)) : ∃ m, buildDdocs fs acc = .ok m := by
  induction fs generalizing acc with
  | nil => exact ⟨acc, rfl⟩
  | cons f fs ih =>
    have hf := hall f (List.mem_cons_self _ _)
    have hall2 : ∀ g ∈ fs, g.content.hasId = true :=
      fun g hg => hall g (List.mem_cons_of_mem _ hg)
    cases hc : f.content with
    | invalid => rw [hc] at hf; simp [JsonDoc.hasId] at hf
    | noId => rw [hc] at hf; simp [JsonDoc.hasId] at hf
    | withId i =>
      simp only [buildDdocs, hc]
      by_cases hi : (dlookup acc i).isSome
      · rw [if_pos hi]; exact ih hall2 _
      · rw [if_neg hi]; exact ih hall2 _

theorem buildDdocs_error_of_bad {fs : List DFile} {f : DFile}
    (hmem : f ∈ fs) (hbad : f.content.hasId = false) (acc : List (String × String)) :
    ∃ p, buildDdocs fs acc = .error (.malformedDocument p) := by
  induction fs generalizing acc with
  | nil => simp at hmem
  | cons g gs ih =>
    cases hc : g.content with
    | invalid => exact ⟨g.path, by simp [buildDdocs, hc]⟩
    | noId => exact ⟨g.path, by simp [buildDdocs, hc]⟩
    | withId i =>
      have hmem2 : f ∈ gs := by
        rcases List.mem_cons.mp hmem with h | h
        · subst h; rw [hc] at hbad; simp [JsonDoc.hasId] at hbad
        · exact h
      simp only [buildDdocs, hc]
      by_cases hi : (dlookup acc i).isSome
      · rw [if_pos hi]; exact ih hmem2 _
      · rw [if_neg hi]; exact ih hmem2 _

theorem buildDdocs_dlookup {fs : List DFile} {acc m : List (String × String)}
    (h : buildDdocs fs acc = .ok m) (k : String) :
    dlookup m k =
      match dlookup acc k with
      | some v => some v
      | none => firstWithId fs k := by
  induction fs generalizing acc with
  | nil =>
    simp only [buildDdocs, Except.ok.injEq] at h
    subst h
    cases hl : dlookup acc k <;> simp [firstWithId, hl]
  | cons f fs ih =>
    cases hc : f.content with
    | invalid => simp [buildDdocs, hc] at h
    | noId => simp [buildDdocs, hc] at h
    | withId i =>
      simp only [buildDdocs, hc] at h
      by_cases hi : (dlookup acc i).isSome
      · rw [if_pos hi] at h
        rw [ih h]
        by_cases hk : i = k
        · subst hk
          obtain ⟨v, hv⟩ := Option.isSome_iff_exists.mp hi
          simp [hv]
        · cases hl : dlookup acc k <;>
            simp [hl, firstWithId, hc, hk]
      · rw [if_neg hi] at h
        rw [ih h, dlookup_append]
        by_cases hk : i = k
        · subst hk
          have hnone : dlookup acc i = none := Option.not_isSome_iff_eq_none.mp hi
          simp [hnone, dlookup, firstWithId, hc]
        · cases hl : dlookup acc k <;>
            simp [hl, dlookup, hk, firstWithId, hc]

theorem buildDdocs_mem {fs : List DFile} {acc m : List (String × String)}
    (h : buildDdocs fs acc = .ok m) :
    ∀ p ∈ m, p ∈ acc ∨ ∃ f, f ∈ fs ∧ f.content = .withId p.1 ∧ p.2 = f.path := by
  induction fs generalizing acc with
  | nil =>
    simp only [buildDdocs, Except.ok.injEq] at h
    subst h
    exact fun p hp => .inl hp
  | cons f fs ih =>
    cases hc : f.content with
    | invalid => simp [buildDdocs, hc] at h
    | noId => simp [buildDdocs, hc] at h
    | withId i =>
      simp only [buildDdocs, hc] at h
      by_cases hi : (dlookup acc i).isSome
      · rw [if_pos hi] at h
        intro p hp
        rcases ih h p hp with h1 | ⟨g, hg, hgc, hgp⟩
        · exact .inl h1
        · exact .inr ⟨g, List.mem_cons_of_mem _ hg, hgc, hgp⟩
      · rw [if_neg hi] at h
        intro p hp
        rcases ih h p hp with h1 | ⟨g, hg, hgc, hgp⟩
        · rcases List.mem_append.mp h1 with h2 | h2
          · exact .inl h2
          · have hp2 : p = (i, f.path) := by simpa using h2
            subst hp2
            exact .inr ⟨f, List.mem_cons_self _ _, by simp [hc], rfl⟩
        · exact .inr ⟨g, List.mem_cons_of_mem _ hg, hgc, hgp⟩

theorem buildDdocs_nodupKeys {fs : List DFile} {acc m : List (String × String)}
    (h : buildDdocs fs acc = .ok m) (hacc : (acc.map Prod.fst).Nodup) :
    (m.map Prod.fst).Nodup := by
  induction fs generalizing acc with
  | nil =>
    simp only [buildDdocs, Except.ok.injEq] at h
    subst h
    exact hacc
  | cons f fs ih =>
    cases hc : f.content with
    | invalid => simp [buildDdocs, hc] at h
    | noId => simp [buildDdocs, hc] at h
    | withId i =>
      simp only [buildDdocs, hc] at h
      by_cases hi : (dlookup acc i).isSome
      · rw [if_pos hi] at h; exact ih h hacc
      · rw [if_neg hi] at h
        apply ih h
        have hnone : dlookup acc i = none := Option.not_isSome_iff_eq_none.mp hi
        have hni : i ∉ acc.map Prod.fst := by
          intro hmemi
          obtain ⟨p, hp, hp1⟩ := List.mem_map.mp hmemi
          have hpm : (i, p.2) ∈ acc := by
            rw [← hp1]
            simpa using hp
          exact (dlookup_eq_none_iff acc i).mp hnone p.2 hpm
        rw [List.map_append, List.nodup_append]
        refine ⟨hacc, by simp, ?_⟩
        intro a ha hb
        simp at hb
        subst hb
        exact hni ha

theorem countP_key_eq_one {m : List (String × String)} {k v : String}
    (hnd : (m.map Prod.fst).Nodup) (h : dlookup m k = some v) :
    m.countP (fun p => decide (p.1 = k)) = 1 := by
  induction m with
  | nil => simp [dlookup] at h
  | cons hd tl ih =>
    obtain ⟨a, b⟩ := hd
    simp only [List.map_cons, List.nodup_cons] at hnd
    by_cases hak : a = k
    · subst hak
      rw [List.countP_cons]
      have hz : tl.countP (fun p => decide (p.1 = a)) = 0 := by
        rw [List.countP_eq_zero]
        intro p hp
        simp only [decide_eq_true_eq]
        intro hpa
        exact hnd.1 (List.mem_map.mpr ⟨p, hp, hpa⟩)
      simp [hz]
    · rw [dlookup] at h
      rw [if_neg hak] at h
      rw [List.countP_cons]
      simp only [hak, decide_eq_true_eq, if_neg]
      simpa using ih hnd.2 h

/-! Lemmas about the preferred filter. -/

theorem preferredFilter_cons (hd : IndexItem) (tl : List IndexItem)
    (m : List (String × String)) :
    preferredFilter (hd :: tl) m =
      preferredFilter tl
        (if _ACTUALLY_PREFERRED.contains hd.id then m
         else if hd.preferred then m
         else dpop m hd.id) := rfl

theorem preferredFilter_keeps_overridden {items : List IndexItem}
    {m : List (String × String)} {k v : String}
    (hk : k ∈ _ACTUALLY_PREFERRED) (hm : (k, v) ∈ m) :
    (k, v) ∈ preferredFilter items m := by
  induction items generalizing m with
  | nil => exact hm
  | cons hd tl ih =>
    rw [preferredFilter_cons]
    apply ih
    by_cases h1 : _ACTUALLY_PREFERRED.contains hd.id
    · rw [if_pos h1]; exact hm
    · rw [if_neg h1]
      by_cases h2 : hd.preferred
      · rw [if_pos h2]; exact hm
      · rw [if_neg h2, mem_dpop_iff]
        refine ⟨hm, fun hkk => ?_⟩
        exact h1 (List.elem_iff.mpr (hkk ▸ hk))

theorem preferredFilter_dlookup_none {items : List IndexItem}
    {m : List (String × String)} {k : String}
    (h : dlookup m k = none) : dlookup (preferredFilter items m) k = none :=
  dlookup_none_of_subset (preferredFilter_subset items m) h

theorem preferredFilter_pops {items : List IndexItem} {item : IndexItem}
    {m : List (String × String)}
    (hmem : item ∈ items) (hov : item.id ∉ _ACTUALLY_PREFERRED)
    (hpref : item.preferred = false) :
    dlookup (preferredFilter items m) item.id = none := by
  induction items generalizing m with
  | nil => simp at hmem
  | cons hd tl ih =>
    rw [preferredFilter_cons]
    rcases List.mem_cons.mp hmem with heq | hmem2
    · subst heq
      have h1 : ¬(_ACTUALLY_PREFERRED.contains item.id = true) :=
        fun hcon => hov (List.elem_iff.mp hcon)
      rw [if_neg h1, if_neg (by rw [hpref]; exact Bool.false_ne_true)]
      exact preferredFilter_dlookup_none (dlookup_dpop_self m item.id)
    · exact ih hmem2

theorem preferredFilter_untouched {items : List IndexItem}
    {m : List (String × String)} {k v : String}
    (hno : ∀ item ∈ items, item.id ≠ k) (hm : (k, v) ∈ m) :
    (k, v) ∈ preferredFilter items m := by
  induction items generalizing m with
  | nil => exact hm
  | cons hd tl ih =>
    rw [preferredFilter_cons]
    apply ih (fun it hit => hno it (List.mem_cons_of_mem _ hit))
    by_cases h1 : _ACTUALLY_PREFERRED.contains hd.id
    · rw [if_pos h1]; exact hm
    · rw [if_neg h1]
      by_cases h2 : hd.preferred
      · rw [if_pos h2]; exact hm
      · rw [if_neg h2, mem_dpop_iff]
        exact ⟨hm, fun hkk => hno hd (List.mem_cons_self _ _) (hkk ▸ rfl)⟩

/-! Shape lemmas for the two modes of the resolver. -/

theorem resolve_false_eq {c : Corpus} {skip : Option (List String)}
    {M : List (String × String)} :
    discovery_documents c false skip = .ok M ↔
      ∃ m0, buildDdocs (filteredFiles c) [] = .ok m0 ∧ M = applySkip skip m0 := by
  rcases h : buildDdocs (filteredFiles c) [] with e | m0 <;>
    simp [discovery_documents, h, eq_comm]

theorem resolve_true_eq {c : Corpus} {skip : Option (List String)}
    {items : List IndexItem} {R : List (String × String)}
    (hI : c.indexContent = .ok items) :
    discovery_documents c true skip = .ok R ↔
      ∃ m0, buildDdocs (filteredFiles c) [] = .ok m0 ∧
        R = preferredFilter items (applySkip skip m0) := by
  rcases h : buildDdocs (filteredFiles c) [] with e | m0 <;>
    simp [discovery_documents, h, hI, eq_comm]

theorem firstWithId_isSome_of_mem {fs : List DFile} {f : DFile} {i : String}
    (hf : f ∈ fs) (hfc : f.content = .withId i) :
    (firstWithId fs i).isSome = true := by
  induction fs with
  | nil => simp at hf
  | cons hd tl ih =>
    simp only [firstWithId]
    by_cases h : hd.content = .withId i
    · rw [if_pos h]; rfl
    · rw [if_neg h]
      rcases List.mem_cons.mp hf with he | hm
      · subst he; exact absurd hfc h
      · exact ih hm

/-- Whatever the mode, a successful resolution result is a sub-mapping of
    the scan result. -/
theorem resolve_ok_subset {c : Corpus} {preferred : Bool}
    {skip : Option (List String)} {M : List (String × String)}
    (hM : discovery_documents c preferred skip = .ok M) :
    ∃ m0, buildDdocs (filteredFiles c) [] = .ok m0 ∧ M ⊆ m0 := by
  unfold discovery_documents at hM
  cases hb : buildDdocs (filteredFiles c) [] with
  | error e => rw [hb] at hM; simp at hM
  | ok m0 =>
    rw [hb] at hM
    refine ⟨m0, rfl, ?_⟩
    cases preferred with
    | false =>
      simp only [Bool.not_false, if_true, Except.ok.injEq] at hM
      rw [← hM]
      exact applySkip_subset skip m0
    | true =>
      simp only [Bool.not_true, Bool.false_eq_true, if_false] at hM
      cases hI : c.indexContent with
      | invalid => rw [hI] at hM; simp at hM
      | ok items =>
        rw [hI] at hM
        simp only [Except.ok.injEq] at hM
        rw [← hM]
        intro x hx
        exact applySkip_subset skip m0
          (preferredFilter_subset items (applySkip skip m0) hx)

/-! Claim theorems. -/

/-- C1: with preferredOnly=true the resolver keeps every id of the fixed
override set _ACTUALLY_PREFERRED even when its index entry is marked not
preferred; it removes every id whose index entry is outside the override
set and marked not preferred (removal of an absent id being a no-op, which
the unconditional lookup-is-none conclusion reflects); and every id of the
mapping that appears in no index entry is left untouched. -/
theorem resolve_preferred_override_spec
    (c : Corpus) (skip : Option (List String)) (M R : List (String × String))
    (items : List IndexItem)
    (hI : c.indexContent = .ok items)
    (hM : discovery_documents c false skip = .ok M)
    (hR : discovery_documents c true skip = .ok R) :
    (∀ k v, k ∈ _ACTUALLY_PREFERRED → (k, v) ∈ M → (k, v) ∈ R) ∧
    (∀ item ∈ items, item.id ∉ _ACTUALLY_PREFERRED → item.preferred = false →
      dlookup R item.id = none) ∧
    (∀ k v, (∀ item ∈ items, item.id ≠ k) → (k, v) ∈ M → (k, v) ∈ R) := by
  obtain ⟨m0, hb, hMeq⟩ := resolve_false_eq.mp hM
  obtain ⟨m1, hb1, hReq⟩ := (resolve_true_eq hI).mp hR
  rw [hb] at hb1
  injection hb1 with hm01
  subst hm01
  subst hMeq
  subst hReq
  refine ⟨?_, ?_, ?_⟩
  · exact fun k v hk hmem => preferredFilter_keeps_overridden hk hmem
  · exact fun item hit hov hp => preferredFilter_pops hit hov hp
  · exact fun k v hno hmem => preferredFilter_untouched hno hmem

/-- C1 witness: a concrete corpus whose index marks the overridden id
admin:directory_v1 not preferred, marks x:v1 not preferred, and does not
mention y:v1. -/
theorem resolve_preferred_override_spec_witness :
    (∀ k v, k ∈ _ACTUALLY_PREFERRED →
      (k, v) ∈ [("admin:directory_v1", "d/admin.json"), ("x:v1", "d/x.json"),
                ("y:v1", "d/y.json")] →
      (k, v) ∈ [("admin:directory_v1", "d/admin.json"), ("y:v1", "d/y.json")]) ∧
    (∀ item ∈ [IndexItem.mk "admin:directory_v1" false, IndexItem.mk "x:v1" false],
      item.id ∉ _ACTUALLY_PREFERRED → item.preferred = false →
      dlookup [("admin:directory_v1", "d/admin.json"), ("y:v1", "d/y.json")] item.id = none) ∧
    (∀ k v,
      (∀ item ∈ [IndexItem.mk "admin:directory_v1" false, IndexItem.mk "x:v1" false],
        item.id ≠ k) →
      (k, v) ∈ [("admin:directory_v1", "d/admin.json"), ("x:v1", "d/x.json"),
                ("y:v1", "d/y.json")] →
      (k, v) ∈ [("admin:directory_v1", "d/admin.json"), ("y:v1", "d/y.json")]) :=
  resolve_preferred_override_spec
    (Corpus.mk
      [DFile.mk "d/admin.json" (.withId "admin:directory_v1"),
       DFile.mk "d/x.json" (.withId "x:v1"),
       DFile.mk "d/y.json" (.withId "y:v1"),
       DFile.mk "d/index.json" .invalid]
      (.ok [IndexItem.mk "admin:directory_v1" false, IndexItem.mk "x:v1" false]))
    none
    [("admin:directory_v1", "d/admin.json"), ("x:v1", "d/x.json"), ("y:v1", "d/y.json")]
    [("admin:directory_v1", "d/admin.json"), ("y:v1", "d/y.json")]
    [IndexItem.mk "admin:directory_v1" false, IndexItem.mk "x:v1" false]
    (by rfl) (by rfl) (by rfl)

/-- C2: when two scanned document files carry the same id (and every
scanned file parses, so no unrelated failure interferes), resolution
succeeds - the duplicate raises nothing - and the mapping holds exactly one
entry for that id, whose value is the path of the first file in scan order
carrying it. -/
theorem resolve_duplicate_first_wins
    (c : Corpus) (f g : DFile) (i : String)
    (hall : ∀ x ∈ filteredFiles c, x.content.hasId = true)
    (hf : f ∈ filteredFiles c) (_hg : g ∈ filteredFiles c)
    (_hfg : f.path ≠ g.path)
    (hfc : f.content = .withId i) (_hgc : g.content = .withId i) :
    ∃ M, discovery_documents c false none = .ok M ∧
      M.countP (fun p => decide (p.1 = i)) = 1 ∧
      dlookup M i = firstWithId (filteredFiles c) i := by
  obtain ⟨m0, hb⟩ := buildDdocs_isOk hall []
  have hM : discovery_documents c false none = .ok m0 :=
    resolve_false_eq.mpr ⟨m0, hb, rfl⟩
  have hl : dlookup m0 i = firstWithId (filteredFiles c) i := by
    have h := buildDdocs_dlookup hb i
    simpa [dlookup] using h
  have hnd : (m0.map Prod.fst).Nodup := buildDdocs_nodupKeys hb (by simp)
  refine ⟨m0, hM, ?_, hl⟩
  have hsome : (firstWithId (filteredFiles c) i).isSome = true :=
    firstWithId_isSome_of_mem hf hfc
  obtain ⟨p, hp⟩ := Option.isSome_iff_exists.mp hsome
  exact countP_key_eq_one hnd (by rw [hl, hp])

/-- C2 witness: two files a.json and b.json both carrying x:v1, scanned in
that order; the result maps x:v1 once, to a.json. -/
theorem resolve_duplicate_first_wins_witness :
    ∃ M, discovery_documents
        (Corpus.mk
          [DFile.mk "d/a.json" (.withId "x:v1"), DFile.mk "d/b.json" (.withId "x:v1")]
          .invalid)
        false none = .ok M ∧
      M.countP (fun p => decide (p.1 = "x:v1")) = 1 ∧
      dlookup M "x:v1" =
        firstWithId
          (filteredFiles
            (Corpus.mk
              [DFile.mk "d/a.json" (.withId "x:v1"), DFile.mk "d/b.json" (.withId "x:v1")]
              .invalid))
          "x:v1" :=
  resolve_duplicate_first_wins
    (Corpus.mk
      [DFile.mk "d/a.json" (.withId "x:v1"), DFile.mk "d/b.json" (.withId "x:v1")]
      .invalid)
    (DFile.mk "d/a.json" (.withId "x:v1")) (DFile.mk "d/b.json" (.withId "x:v1")) "x:v1"
    (by decide) (by decide) (by decide) (by decide) (by rfl) (by rfl)

theorem foldl_dpop_eq_filter (s : List String) (m : List (String × String)) :
    s.foldl dpop m = m.filter (fun p => decide (p.1 ∉ s)) := by
  induction s generalizing m with
  | nil => simp
  | cons hd tl ih =>
    rw [List.foldl_cons, ih, dpop, List.filter_filter]
    apply List.filter_congr
    intro p hp
    by_cases h1 : p.1 ∈ tl <;> by_cases h2 : p.1 = hd <;> simp [h1, h2]

theorem dpop_filter_comm (m : List (String × String)) (k : String)
    (q : String × String → Bool) :
    dpop (m.filter q) k = (dpop m k).filter q := by
  rw [dpop, dpop, List.filter_filter, List.filter_filter]
  apply List.filter_congr
  intro p hp
  by_cases h1 : q p <;> by_cases h2 : p.1 = k <;> simp [h1, h2]

theorem preferredFilter_filter_comm (items : List IndexItem)
    (m : List (String × String)) (q : String × String → Bool) :
    preferredFilter items (m.filter q) = (preferredFilter items m).filter q := by
  induction items generalizing m with
  | nil => simp [preferredFilter]
  | cons hd tl ih =>
    rw [preferredFilter_cons, preferredFilter_cons]
    by_cases h1 : _ACTUALLY_PREFERRED.contains hd.id
    · rw [if_pos h1, if_pos h1, ih]
    · rw [if_neg h1, if_neg h1]
      by_cases h2 : hd.preferred
      · rw [if_pos h2, if_pos h2, ih]
      · rw [if_neg h2, if_neg h2, dpop_filter_comm, ih]

/-- C3: for every corpus, mode and skip list, resolving with the skip list
equals resolving without it and subtracting the skipped keys from the
final mapping, whether or not they were present; since the subtraction is
applied to the preferred-filtered result while the code removes the skip
ids before filtering, the equation also shows that skip removal commutes
with the preferred filter. -/
theorem resolve_skip_is_subtraction (c : Corpus) (S : List String) (preferred : Bool) :
    discovery_documents c preferred (some S) =
      Except.map (fun m => m.filter (fun p => decide (p.1 ∉ S)))
        (discovery_documents c preferred none) := by
  unfold discovery_documents
  cases hb : buildDdocs (filteredFiles c) [] with
  | error e => simp [Except.map]
  | ok m0 =>
    cases preferred with
    | false =>
      simp only [Bool.not_false, if_true, applySkip, Except.map]
      rw [foldl_dpop_eq_filter]
    | true =>
      simp only [Bool.not_true, Bool.false_eq_true, if_false]
      cases hI : c.indexContent with
      | invalid => simp [Except.map]
      | ok items =>
        simp only [applySkip, Except.map]
        rw [foldl_dpop_eq_filter, preferredFilter_filter_comm]

/-- C5: whatever the mode and skip list, no value of a successfully
returned mapping is the index file: every value is the path of a scanned
file whose basename differs from index.json, so the path of the index file
never appears. -/
theorem resolve_never_maps_to_index
    (c : Corpus) (preferred : Bool) (skip : Option (List String))
    (M : List (String × String))
    (hM : discovery_documents c preferred skip = .ok M) :
    ∀ p ∈ M, basename p.2 ≠ "index.json" := by
  obtain ⟨m0, hb, hsub⟩ := resolve_ok_subset hM
  intro p hp
  rcases buildDdocs_mem hb p (hsub hp) with h | ⟨f, hf, _hfc, hfp⟩
  · simp at h
  · rw [hfp]
    have h2 := (List.mem_filter.mp hf).2
    simpa using h2

/-- C5 witness: a corpus containing the index file among the globbed
files; the single value of the resolved mapping is not named index.json. -/
theorem resolve_never_maps_to_index_witness :
    basename ("x:v1", "d/x.json").2 ≠ "index.json" :=
  resolve_never_maps_to_index
    (Corpus.mk [DFile.mk "d/index.json" .invalid, DFile.mk "d/x.json" (.withId "x:v1")]
      (.ok []))
    true none [("x:v1", "d/x.json")] (by rfl)
    ("x:v1", "d/x.json") (by decide)

/-- C7: a scanned document file whose content is not valid JSON or lacks
the id field makes the resolver fail with a malformed-document error that
is returned to the caller, in every mode; no mapping is produced, so no
entry is silently skipped. -/
theorem resolve_malformed_document_error
    (c : Corpus) (preferred : Bool) (skip : Option (List String)) (f : DFile)
    (hf : f ∈ filteredFiles c) (hbad : f.content.hasId = false) :
    ∃ p, discovery_documents c preferred skip = .error (.malformedDocument p) := by
  obtain ⟨p, hp⟩ := buildDdocs_error_of_bad hf hbad []
  exact ⟨p, by unfold discovery_documents; rw [hp]⟩

/-- C7 witness: a corpus whose second file parses to JSON without an id
field; resolution fails with the malformed-document error. -/
theorem resolve_malformed_document_error_witness :
    ∃ p, discovery_documents
        (Corpus.mk [DFile.mk "d/a.json" (.withId "a:v1"), DFile.mk "d/bad.json" .noId]
          (.ok []))
        false none = .error (.malformedDocument p) :=
  resolve_malformed_document_error
    (Corpus.mk [DFile.mk "d/a.json" (.withId "a:v1"), DFile.mk "d/bad.json" .noId]
      (.ok []))
    false none (DFile.mk "d/bad.json" .noId) (by decide) (by rfl)

/-- C10: an id appearing both in the skip list and in the override set
_ACTUALLY_PREFERRED is absent from the preferred-only result: the skip
removal happens unconditionally, and the override only shields an id from
the preferred filter of the index, never from the skip list. -/
theorem resolve_skip_beats_override
    (c : Corpus) (S : List String) (k : String) (R : List (String × String))
    (hk : k ∈ S) (_hov : k ∈ _ACTUALLY_PREFERRED)
    (hR : discovery_documents c true (some S) = .ok R) :
    dlookup R k = none := by
  unfold discovery_documents at hR
  cases hb : buildDdocs (filteredFiles c) [] with
  | error e => rw [hb] at hR; simp at hR
  | ok m0 =>
    rw [hb] at hR
    simp only [Bool.not_true, Bool.false_eq_true, if_false] at hR
    cases hI : c.indexContent with
    | invalid => rw [hI] at hR; simp at hR
    | ok items =>
      rw [hI] at hR
      simp only [Except.ok.injEq] at hR
      rw [← hR]
      apply preferredFilter_dlookup_none
      rw [applySkip, foldl_dpop_eq_filter, dlookup_eq_none_iff]
      intro v hv
      have h2 := (List.mem_filter.mp hv).2
      simp at h2
      exact h2 hk

/-- C10 witness: admin:directory_v1 is in the override set and in the skip
list; with preferredOnly=true it is still absent from the result. -/
theorem resolve_skip_beats_override_witness :
    dlookup [] "admin:directory_v1" = none :=
  resolve_skip_beats_override
    (Corpus.mk [DFile.mk "d/admin.json" (.withId "admin:directory_v1")]
      (.ok [IndexItem.mk "admin:directory_v1" false]))
    ["admin:directory_v1"] "admin:directory_v1" []
    (by decide) (by decide) (by rfl)

theorem scanTrace_all_reads {fs : List DFile} :
    ∀ e ∈ scanTrace fs, ∃ p, e = Effect.readFile p := by
  induction fs with
  | nil => simp [scanTrace]
  | cons f tl ih =>
    intro e he
    simp only [scanTrace] at he
    rcases List.mem_cons.mp he with he1 | he2
    · exact ⟨f.path, he1⟩
    · cases hc : f.content with
      | withId i => rw [hc] at he2; exact ih e he2
      | invalid => rw [hc] at he2; simp at he2
      | noId => rw [hc] at he2; simp at he2

/-- C4 counterexample: a concrete invocation of discovery_documents whose
effect trace contains the clone of the tracked repository into the working
directory, an operation that is not a filesystem read; so the claim that
resolution only reads the filesystem is false of the code, whose first
step is the clone. -/
theorem resolve_trace_not_all_reads :
    ¬ (∀ e ∈ discovery_documents_trace (Env.mk none none) "/tmp/work"
          (Corpus.mk [] .invalid) false, e.isFilesystemRead = true) := by
  decide

/-- C4 amended: apart from the initial clone of the tracked repository
into the supplied directory, every effect of discovery_documents is a
filesystem read; it performs no other write, network, or mutating
operation. -/
theorem resolve_trace_reads_except_clone
    (env : Env) (filepath : String) (c : Corpus) (preferred : Bool) :
    ∀ e ∈ discovery_documents_trace env filepath c preferred,
      e.isFilesystemRead = true ∨
        e = Effect.cloneFromGitHub (_repo_path env) (joinPath filepath (_repo_name env)) := by
  intro e he
  simp only [discovery_documents_trace] at he
  rcases List.mem_cons.mp he with he1 | he2
  · exact .inr he1
  rcases List.mem_cons.mp he2 with he3 | he4
  · subst he3; exact .inl rfl
  rcases List.mem_append.mp he4 with he5 | he6
  · obtain ⟨p, hp⟩ := scanTrace_all_reads e he5
    subst hp
    exact .inl rfl
  · by_cases hcnd : ((filteredFiles c).all (fun f => f.content.hasId) && preferred) = true
    · rw [if_pos hcnd] at he6
      have hp : e = Effect.readFile
          (joinPath (joinPath filepath (_repo_name env)) "discoveries/index.json") := by
        simpa using he6
      subst hp
      exact .inl rfl
    · rw [if_neg hcnd] at he6
      simp at he6

/-- C4 amended witness: the readFile effect for a concrete scanned file is
classified a filesystem read. -/
theorem resolve_trace_reads_except_clone_witness :
    (Effect.readFile "d/x.json").isFilesystemRead = true ∨
      Effect.readFile "d/x.json" =
        Effect.cloneFromGitHub (_repo_path (Env.mk none none))
          (joinPath "/tmp/work" (_repo_name (Env.mk none none))) :=
  resolve_trace_reads_except_clone (Env.mk none none) "/tmp/work"
    (Corpus.mk [DFile.mk "d/x.json" (.withId "x:v1")] .invalid) false
    (Effect.readFile "d/x.json") (by decide)

/-- C6: with both regeneration processes exiting zero, an empty staged
diff makes the cycle report updated=false with no commit and no push,
while a nonempty staged diff makes it report updated=true with exactly one
commit - carrying the fixed message and the name and email of the account - and
exactly one push. -/
theorem update_commit_push_discipline
    (env : Env) (filepath : String) (repo : RepoState) (account : GitHubAccount)
    (gopath : String)
    (hln : repo.lnExitCode = 0) (hgo : repo.goExitCode = 0) :
    (repo.diffNameStatusAfterAdd = [] →
      (update env filepath repo account gopath).1 = .ok false ∧
      (update env filepath repo account gopath).2.filter Effect.isCommit = [] ∧
      (update env filepath repo account gopath).2.filter Effect.isPush = []) ∧
    (repo.diffNameStatusAfterAdd ≠ [] →
      (update env filepath repo account gopath).1 = .ok true ∧
      (update env filepath repo account gopath).2.filter Effect.isCommit =
        [Effect.gitCommit commitMessage account.name account.email] ∧
      (update env filepath repo account gopath).2.filter Effect.isPush =
        [Effect.gitPush none]) := by
  constructor
  · intro hd
    refine ⟨?_, ?_, ?_⟩ <;>
      simp [update, _update_disco, hln, hgo, hd,
        Effect.isCommit, Effect.isPush]
  · intro hd
    cases hdc : repo.diffNameStatusAfterAdd with
    | nil => exact absurd hdc hd
    | cons d ds =>
      refine ⟨?_, ?_, ?_⟩ <;>
        simp [update, _update_disco, hln, hgo, hdc,
          Effect.isCommit, Effect.isPush]

/-- C6 witness: at a concrete account and a concrete working copy whose
staged diff holds one modified file, the cycle reports updated=true with
exactly one commit carrying the fixed message and the identity of the account,
and exactly one push. -/
theorem update_commit_push_discipline_witness :
    (([("discoveries/a.json", "M")] : List (String × String)) = [] →
      (update (Env.mk none none) "/w"
          (RepoState.mk "/w/discovery-artifact-manager" 0 0 [("discoveries/a.json", "M")])
          (GitHubAccount.mk "Disco Bot" "bot@example.com" "secret") "/tmp/gopath").1 =
        .ok false ∧
      (update (Env.mk none none) "/w"
          (RepoState.mk "/w/discovery-artifact-manager" 0 0 [("discoveries/a.json", "M")])
          (GitHubAccount.mk "Disco Bot" "bot@example.com" "secret") "/tmp/gopath").2.filter
          Effect.isCommit = [] ∧
      (update (Env.mk none none) "/w"
          (RepoState.mk "/w/discovery-artifact-manager" 0 0 [("discoveries/a.json", "M")])
          (GitHubAccount.mk "Disco Bot" "bot@example.com" "secret") "/tmp/gopath").2.filter
          Effect.isPush = []) ∧
    (([("discoveries/a.json", "M")] : List (String × String)) ≠ [] →
      (update (Env.mk none none) "/w"
          (RepoState.mk "/w/discovery-artifact-manager" 0 0 [("discoveries/a.json", "M")])
          (GitHubAccount.mk "Disco Bot" "bot@example.com" "secret") "/tmp/gopath").1 =
        .ok true ∧
      (update (Env.mk none none) "/w"
          (RepoState.mk "/w/discovery-artifact-manager" 0 0 [("discoveries/a.json", "M")])
          (GitHubAccount.mk "Disco Bot" "bot@example.com" "secret") "/tmp/gopath").2.filter
          Effect.isCommit =
        [Effect.gitCommit commitMessage "Disco Bot" "bot@example.com"] ∧
      (update (Env.mk none none) "/w"
          (RepoState.mk "/w/discovery-artifact-manager" 0 0 [("discoveries/a.json", "M")])
          (GitHubAccount.mk "Disco Bot" "bot@example.com" "secret") "/tmp/gopath").2.filter
          Effect.isPush = [Effect.gitPush none]) :=
  update_commit_push_discipline (Env.mk none none) "/w"
    (RepoState.mk "/w/discovery-artifact-manager" 0 0 [("discoveries/a.json", "M")])
    (GitHubAccount.mk "Disco Bot" "bot@example.com" "secret") "/tmp/gopath" rfl rfl

/-- C9: on every exit path of the regeneration step - success, non-zero
exit of either invoked process, empty or nonempty diff - the temporary
build directory is created once and removed once, in that order; and with
the symlink succeeding, a non-zero exit of the regeneration tool aborts
the cycle with the regeneration failure carrying that exit code. -/
theorem update_disco_tempdir_cleanup
    (repo : RepoState) (account : GitHubAccount) (gopath : String) :
    (_update_disco repo account gopath).2.filter Effect.isTempDir =
      [Effect.makeTempDir, Effect.removeTempDir] ∧
    (repo.lnExitCode = 0 → repo.goExitCode ≠ 0 →
      (_update_disco repo account gopath).1 =
        .error (.regenerationFailed goCmd repo.goExitCode)) := by
  constructor
  · by_cases h1 : repo.lnExitCode ≠ 0
    · simp [_update_disco, h1, Effect.isTempDir]
    · by_cases h2 : repo.goExitCode ≠ 0
      · simp [_update_disco, h1, h2, Effect.isTempDir]
      · by_cases h3 : repo.diffNameStatusAfterAdd.isEmpty
        · simp [_update_disco, h1, h2, h3, Effect.isTempDir]
        · simp [_update_disco, h1, h2, h3, Effect.isTempDir]
  · intro hln hgo
    simp [_update_disco, hln, hgo]

/-- C9 witness: with the symlink succeeding and the regeneration tool
exiting 1, the trace still holds exactly one creation and one removal of
the temporary directory, and the result is the regeneration failure. -/
theorem update_disco_tempdir_cleanup_witness :
    (_update_disco (RepoState.mk "/w/discovery-artifact-manager" 0 1 [])
        (GitHubAccount.mk "Disco Bot" "bot@example.com" "secret")
        "/tmp/gopath").2.filter Effect.isTempDir =
      [Effect.makeTempDir, Effect.removeTempDir] ∧
    ((RepoState.mk "/w/discovery-artifact-manager" 0 1 []).lnExitCode = 0 →
      (RepoState.mk "/w/discovery-artifact-manager" 0 1 []).goExitCode ≠ 0 →
      (_update_disco (RepoState.mk "/w/discovery-artifact-manager" 0 1 [])
          (GitHubAccount.mk "Disco Bot" "bot@example.com" "secret")
          "/tmp/gopath").1 =
        .error (.regenerationFailed goCmd
          (RepoState.mk "/w/discovery-artifact-manager" 0 1 []).goExitCode)) :=
  update_disco_tempdir_cleanup
    (RepoState.mk "/w/discovery-artifact-manager" 0 1 [])
    (GitHubAccount.mk "Disco Bot" "bot@example.com" "secret") "/tmp/gopath"

/-- C8 counterexample: with the host clock one hour ahead of UTC (local
time 2026-01-01 00:00:00, UTC 2025-12-31 23:00:00) and a one-file staged
diff, the only branch pushed by the review-request flow is named from the
local time, which differs from the name that the UTC timestamp of the claim would
give: the code builds the name from datetime.now(), not UTC. -/
theorem create_pull_request_not_utc_named :
    (create_pull_request (Env.mk none none) "/w"
        (RepoState.mk "/w/discovery-artifact-manager" 0 0 [("discoveries/a.json", "M")])
        (GitHubAccount.mk "Disco Bot" "bot@example.com" "secret")
        (Clock.mk (Timestamp.mk 2026 1 1 0 0 0) (Timestamp.mk 2025 12 31 23 0 0))
        "/tmp/gopath").2.filter Effect.isPush =
      [Effect.gitPush (some "update-discovery-artifacts-20260101-000000")] ∧
    "update-discovery-artifacts-20260101-000000" ≠
      "update-discovery-artifacts-" ++
        strftimeYmdHMS
          (Clock.mk (Timestamp.mk 2026 1 1 0 0 0) (Timestamp.mk 2025 12 31 23 0 0)).utcNow := by
  decide

/-- C8 amended: in the review-request flow with a nonempty staged diff,
the branch pushed is named update-discovery-artifacts-<timestamp> with the
timestamp formatted YYYYMMDD-HHMMSS from the LOCAL time of the system (the code
calls datetime.now(), which agrees with UTC only on a UTC host); the
branch was checked out at the start of the flow; and the review request is
opened from that branch onto base master with the fixed title
"chore: autogenerated discovery document update" and empty body. -/
theorem create_pull_request_branch_and_pr
    (env : Env) (filepath : String) (repo : RepoState) (account : GitHubAccount)
    (clock : Clock) (gopath : String)
    (hln : repo.lnExitCode = 0) (hgo : repo.goExitCode = 0)
    (hdiff : repo.diffNameStatusAfterAdd ≠ []) :
    (create_pull_request env filepath repo account clock gopath).2.filter Effect.isPush =
      [Effect.gitPush
        (some ("update-discovery-artifacts-" ++ strftimeYmdHMS clock.localNow))] ∧
    Effect.gitCheckoutNew ("update-discovery-artifacts-" ++ strftimeYmdHMS clock.localNow) ∈
      (create_pull_request env filepath repo account clock gopath).2 ∧
    Effect.createPull prTitle ""
        "master" ("update-discovery-artifacts-" ++ strftimeYmdHMS clock.localNow) ∈
      (create_pull_request env filepath repo account clock gopath).2 := by
  cases hdc : repo.diffNameStatusAfterAdd with
  | nil => exact absurd hdc hdiff
  | cons d ds =>
    refine ⟨?_, ?_, ?_⟩ <;>
      simp [create_pull_request, _update_disco, hln, hgo, hdc, prBranchName,
        Effect.isPush]

/-- C8 amended witness: at the concrete clock of the counterexample, the
pushed branch, the checked-out branch and the review request all use the
local-time name, the fixed title and the empty body. -/
theorem create_pull_request_branch_and_pr_witness :
    (create_pull_request (Env.mk none none) "/w"
        (RepoState.mk "/w/discovery-artifact-manager" 0 0 [("discoveries/a.json", "M")])
        (GitHubAccount.mk "Disco Bot" "bot@example.com" "secret")
        (Clock.mk (Timestamp.mk 2026 1 1 0 0 0) (Timestamp.mk 2025 12 31 23 0 0))
        "/tmp/gopath").2.filter Effect.isPush =
      [Effect.gitPush
        (some ("update-discovery-artifacts-" ++
          strftimeYmdHMS
            (Clock.mk (Timestamp.mk 2026 1 1 0 0 0)
              (Timestamp.mk 2025 12 31 23 0 0)).localNow))] ∧
    Effect.gitCheckoutNew
        ("update-discovery-artifacts-" ++
          strftimeYmdHMS
            (Clock.mk (Timestamp.mk 2026 1 1 0 0 0)
              (Timestamp.mk 2025 12 31 23 0 0)).localNow) ∈
      (create_pull_request (Env.mk none none) "/w"
        (RepoState.mk "/w/discovery-artifact-manager" 0 0 [("discoveries/a.json", "M")])
        (GitHubAccount.mk "Disco Bot" "bot@example.com" "secret")
        (Clock.mk (Timestamp.mk 2026 1 1 0 0 0) (Timestamp.mk 2025 12 31 23 0 0))
        "/tmp/gopath").2 ∧
    Effect.createPull prTitle "" "master"
        ("update-discovery-artifacts-" ++
          strftimeYmdHMS
            (Clock.mk (Timestamp.mk 2026 1 1 0 0 0)
              (Timestamp.mk 2025 12 31 23 0 0)).localNow) ∈
      (create_pull_request (Env.mk none none) "/w"
        (RepoState.mk "/w/discovery-artifact-manager" 0 0 [("discoveries/a.json", "M")])
        (GitHubAccount.mk "Disco Bot" "bot@example.com" "secret")
        (Clock.mk (Timestamp.mk 2026 1 1 0 0 0) (Timestamp.mk 2025 12 31 23 0 0))
        "/tmp/gopath").2 :=
  create_pull_request_branch_and_pr (Env.mk none none) "/w"
    (RepoState.mk "/w/discovery-artifact-manager" 0 0 [("discoveries/a.json", "M")])
    (GitHubAccount.mk "Disco Bot" "bot@example.com" "secret")
    (Clock.mk (Timestamp.mk 2026 1 1 0 0 0) (Timestamp.mk 2025 12 31 23 0 0))
    "/tmp/gopath" rfl rfl (by decide)
